import Mathlib

/-!
Shallow embedding of `script.js` from the YouTube-Clone repository, with
theorems checking the specification's claims about it.

Strings are modelled as Lean strings (lists of characters); the JavaScript
operations `toLowerCase`, `trim`, `includes` and `padStart` are modelled
character-wise (ASCII case folding).  `Math.random()` is modelled by an
oracle stream `ρ : ℕ → ℚ` of values in `[0, 1)`, consumed in source order
(ten draws per generated video).  The floating-point division and
`toFixed(1)` inside `formatViews` are modelled exactly: the quotient is
rounded to the nearest binary64 value (round-to-nearest, ties-to-even),
and `toFixed(1)` rounds that value to one decimal digit with ties away
from zero, as the ECMAScript standard prescribes.  Integer arguments below
`2 ^ 53` are exactly representable, so they are kept as naturals.
-/

namespace YTClone

/-- The category chip labels (`CATEGORIES` in `script.js`). -/
def CATEGORIES : List String :=
  ["All", "Music", "Gaming", "News", "Sports", "Education", "Comedy",
   "Technology", "Lifestyle"]

/-- `VIDEO_COUNT` from `script.js`. -/
def VIDEO_COUNT : ℕ := 36

/-- JavaScript `s.toLowerCase()`, character-wise (ASCII letters). -/
def jsToLower (s : String) : String := ⟨s.data.map Char.toLower⟩

/-- JavaScript `s.trim()`: strip leading and trailing whitespace. -/
def jsTrim (s : String) : String :=
  ⟨((s.data.dropWhile Char.isWhitespace).reverse.dropWhile Char.isWhitespace).reverse⟩

/-- JavaScript `s.includes(sub)`: substring test. -/
def jsIncludes (s sub : String) : Bool := decide (sub.data <:+: s.data)

/-- `timeAgo(days)` from `script.js` (`days` is a non-negative integer). -/
def timeAgo (days : ℕ) : String :=
  if days < 1 then "Today"
  else if days = 1 then "1 day ago"
  else if days < 30 then Nat.repr days ++ " days ago"
  else if days < 365 then Nat.repr (days / 30) ++ " months ago"
  else Nat.repr (days / 365) ++ " years ago"

/-- Fuel-driven floor of the base-two logarithm (0 for 0 and 1). -/
def log2Aux : ℕ → ℕ → ℕ
  | 0, _ => 0
  | fuel + 1, n => if 2 ≤ n then log2Aux fuel (n / 2) + 1 else 0

/-- `⌊log₂ n⌋` (0 for `n = 0`), computed by structural recursion so that
the kernel can evaluate it; it agrees with `Nat.log2` everywhere. -/
def floorLog2 (n : ℕ) : ℕ := log2Aux n n

/-- Binary exponent used when `p / q` (with `1 ≤ p / q < 2 ^ 53`) is
rounded to binary64: the value is represented as `fpMantissa p q / 2 ^ fpShift p q`. -/
def fpShift (p q : ℕ) : ℕ := 52 - floorLog2 (p / q)

/-- Mantissa obtained by rounding `p / q` (with `1 ≤ p / q < 2 ^ 53`) to
the nearest binary64 value, ties to even.  This is the rounding performed
by the JavaScript divisions in `formatViews`. -/
def fpMantissa (p q : ℕ) : ℕ :=
  if 2 * (p * 2 ^ fpShift p q % q) < q then p * 2 ^ fpShift p q / q
  else if q < 2 * (p * 2 ^ fpShift p q % q) then p * 2 ^ fpShift p q / q + 1
  else if (p * 2 ^ fpShift p q / q) % 2 = 0 then p * 2 ^ fpShift p q / q
  else p * 2 ^ fpShift p q / q + 1

/-- `x.toFixed(1)` applied to the binary64 quotient `x` of `p / q`,
returned as the integer nearest to `10 * x`, ties rounded up (away from
zero for positive values), as the ECMAScript `toFixed` specification
prescribes. -/
def toFixed1Num (p q : ℕ) : ℕ :=
  (20 * fpMantissa p q + 2 ^ fpShift p q) / 2 ^ (fpShift p q + 1)

/-- The decimal string produced by `(p / q).toFixed(1)`. -/
def toFixed1 (p q : ℕ) : String :=
  Nat.repr (toFixed1Num p q / 10) ++ "." ++ Nat.repr (toFixed1Num p q % 10)

/-- `formatViews(n)` from `script.js`. -/
def formatViews (n : ℕ) : String :=
  if 1000000000 ≤ n then toFixed1 n 1000000000 ++ "B views"
  else if 1000000 ≤ n then toFixed1 n 1000000 ++ "M views"
  else if 1000 ≤ n then toFixed1 n 1000 ++ "K views"
  else Nat.repr n ++ " views"

/-- Characters kept by `slugify` (the class `[a-z0-9]` of its regex). -/
def isSlugChar (c : Char) : Bool := c.isLower || c.isDigit

/-- The regex replacement `[^a-z0-9]+ → "-"` of `slugify`: each maximal
run of excluded characters becomes a single hyphen.  The boolean records
whether the previous character belonged to a run already replaced. -/
def collapseRuns : Bool → List Char → List Char
  | _, [] => []
  | sawRun, c :: cs =>
    if isSlugChar c then c :: collapseRuns false cs
    else if sawRun then collapseRuns true cs
    else '-' :: collapseRuns true cs

/-- The regex replacement `(^-|-$) → ""` of `slugify`: drop one leading
and one trailing hyphen. -/
def stripEdgeHyphens (l : List Char) : List Char :=
  let l1 := if l.head? = some '-' then l.tail else l
  if l1.getLast? = some '-' then l1.dropLast else l1

/-- `slugify(s)` from `script.js`. -/
def slugify (s : String) : String :=
  ⟨stripEdgeHyphens (collapseRuns false (s.data.map Char.toLower))⟩

/-- `rand(min, max)` from `script.js`: `Math.floor(r * (max - min + 1)) + min`
where `r` is the `Math.random()` draw (every call site has `min ≤ max`). -/
def rand (r : ℚ) (min max : ℕ) : ℕ :=
  (⌊r * ((max - min + 1 : ℕ) : ℚ)⌋).toNat + min

/-- `pick(arr)` from `script.js`: the element at a random index. -/
def pick {α : Type} [Inhabited α] (r : ℚ) (arr : List α) : α :=
  arr.getD (rand r 0 (arr.length - 1)) default

/-- A video record as built by `generateVideos`. -/
structure Video where
  id : String
  title : String
  channel : String
  category : String
  views : ℕ
  daysAgo : ℕ
  thumbUrl : String
  avatarUrl : String
  duration : String
deriving DecidableEq

/-- The `sampleTitles` pool inside `generateVideos`. -/
def sampleTitles : List String :=
  ["Relaxing Lo-fi Beats", "Top 10 JavaScript Tricks", "Epic Gameplay Highlights",
   "Breaking News Update", "Daily Workout Routine", "Stand-up Comedy Set",
   "How to Build a Portfolio", "Gadget Review: Latest Phone",
   "Cooking: 30-minute Meals", "Study With Me — Focus Session",
   "Travel Vlog: Hidden Gems", "Beginner Guitar Lesson"]

/-- The `sampleChannels` pool inside `generateVideos`. -/
def sampleChannels : List String :=
  ["TechFlow", "DailyBeat", "GameStream", "NewsNow", "FitLife", "LaughCast",
   "LearnHub", "GizmoLab", "KitchenLite", "StudyCorner", "Wanderer", "AcousticSoul"]

/-- JavaScript `s.padStart(2, "0")`. -/
def padStart2Zero (s : String) : String :=
  if 2 ≤ s.length then s else ⟨List.replicate (2 - s.length) '0' ++ s.data⟩

/-- The record built by iteration `i` of the loop in `generateVideos`,
given the oracle `ρ` of `Math.random()` draws (ten per iteration, consumed
in source order). -/
def mkVideo (ρ : ℕ → ℚ) (i : ℕ) : Video :=
  let category := pick (ρ (10 * i)) (CATEGORIES.drop 1)
  let title := pick (ρ (10 * i + 1)) sampleTitles ++ " " ++
    Nat.repr (rand (ρ (10 * i + 2)) 1 999)
  let channel := pick (ρ (10 * i + 3)) sampleChannels
  let views := rand (ρ (10 * i + 4)) 500 10000000
  let daysAgo := rand (ρ (10 * i + 5)) 0 1200
  let thumbId := rand (ρ (10 * i + 6)) 10 1000
  let avatarId := rand (ρ (10 * i + 7)) 1 70
  let durationMin := rand (ρ (10 * i + 8)) 1 20
  let durationSec := rand (ρ (10 * i + 9)) 0 59
  let duration := Nat.repr durationMin ++ ":" ++ padStart2Zero (Nat.repr durationSec)
  { id := "vid-" ++ Nat.repr i ++ "-" ++ slugify title
    title := title
    channel := channel
    category := category
    views := views
    daysAgo := daysAgo
    thumbUrl := "https://picsum.photos/id/" ++ Nat.repr thumbId ++ "/480/270"
    avatarUrl := "https://i.pravatar.cc/40?img=" ++ Nat.repr avatarId
    duration := duration }

/-- `generateVideos(count)` from `script.js`. -/
def generateVideos (ρ : ℕ → ℚ) (count : ℕ) : List Video :=
  (List.range count).map (mkVideo ρ)

/-- One entry of the `THEMES` lookup table. -/
structure ThemeEntry where
  icon : String
  label : String
deriving DecidableEq

/-- The `THEMES` table from `script.js`, as a finite lookup on theme names. -/
def THEMES (t : String) : Option ThemeEntry :=
  if t = "light" then some ⟨"🌙", "Switch to dark theme"⟩
  else if t = "dark" then some ⟨"☀️", "Switch to light theme"⟩
  else none

/-- The DOM and localStorage state touched by the theme functions:
the `data-theme` attribute of `body` (absent or a string), the toggle
button's text and title, and the `ytcl_theme` localStorage entry. -/
structure DomState where
  dataTheme : Option String
  toggleIcon : String
  toggleTitle : String
  storedTheme : Option String
deriving DecidableEq

/-- `applyTheme(theme)` from `script.js`; `none` models the `TypeError`
thrown when `THEMES[theme]` is `undefined` (never reached by the callers
in the file, which pass only "light" or "dark"). -/
def applyTheme (theme : String) (s : DomState) : Option DomState :=
  (THEMES theme).map fun e =>
    { dataTheme := some theme
      toggleIcon := e.icon
      toggleTitle := e.label
      storedTheme := some theme }

/-- `toggleTheme()` from `script.js`: read the current attribute
(defaulting to "light" when absent) and apply the flipped theme. -/
def toggleTheme (s : DomState) : Option DomState :=
  let current := s.dataTheme.getD "light"
  applyTheme (if current = "light" then "dark" else "light") s

/-- The predicate inside `filterVideosByQuery`, for the already
lowercased-and-trimmed query `q`. -/
def matchesQuery (q : String) (v : Video) : Bool :=
  jsIncludes (jsToLower v.title) q || jsIncludes (jsToLower v.channel) q ||
    jsIncludes (jsToLower v.category) q

/-- `filterVideosByQuery(list, query)` from `script.js`; for a string
argument, `!query` is true exactly for the empty string. -/
def filterVideosByQuery (list : List Video) (query : String) : List Video :=
  if query = "" then list
  else
    let q := jsTrim (jsToLower query)
    list.filter (matchesQuery q)

/-- The list computed inside `renderVideos`: the category restriction
(when the selected category is not "All") followed by the text filter on
the search field's value (`searchInput.value || ""` is the identity here,
since the field's value is a string and `"" || ""` is `""`). -/
def renderList (videos : List Video) (selectedCategory searchValue : String) : List Video :=
  let list := videos
  let list :=
    if selectedCategory ≠ "All" then list.filter (fun v => v.category == selectedCategory)
    else list
  filterVideosByQuery list searchValue

/-- What the grid container holds after `renderVideos` runs: either the
explicit empty-state paragraph or one card per video, in list order. -/
inductive GridContent where
  | emptyMessage (text : String)
  | cards (videos : List Video)
deriving DecidableEq

/-- `renderVideos()` from `script.js`, as a function from the application
state (video list, selected category, search text) to the grid content it
renders. -/
def renderVideos (videos : List Video) (selectedCategory searchValue : String) : GridContent :=
  let list := renderList videos selectedCategory searchValue
  if list.length = 0 then GridContent.emptyMessage "No videos found matching your search."
  else GridContent.cards list

/-- Number of video cards in rendered grid content. -/
def cardCount : GridContent → ℕ
  | GridContent.emptyMessage _ => 0
  | GridContent.cards l => l.length

/-! ### The filter pipeline -/

/-- The whole pipeline is a single stable filter over the original list. -/
theorem renderList_eq_filter (L : List Video) (C Q : String) :
    renderList L C Q = L.filter (fun v =>
      (decide (C = "All") || v.category == C) &&
      (decide (Q = "") || matchesQuery (jsTrim (jsToLower Q)) v)) := by
  unfold renderList filterVideosByQuery
  by_cases hC : C = "All" <;> by_cases hQ : Q = "" <;>
    simp [hC, hQ, List.filter_filter, Bool.and_comm]

/-- Claim C1: the pipeline first keeps (for a category other than "All")
exactly the records whose category equals the selected one, then (for a
non-empty query) exactly the records whose lowercased title, channel or
category contains the lowercased-and-trimmed query; the result is the
single stable filter of the original list by the conjunction of the two
conditions, hence a subsequence of it, and the text filter passes the
empty query through unchanged. -/
theorem filter_pipeline_correct (L : List Video) (C Q : String) :
    renderList L C Q = L.filter (fun v =>
      (decide (C = "All") || v.category == C) &&
      (decide (Q = "") || matchesQuery (jsTrim (jsToLower Q)) v)) ∧
    (renderList L C Q).Sublist L ∧
    (∀ v, v ∈ renderList L C Q ↔ v ∈ L ∧ (C = "All" ∨ v.category = C) ∧
      (Q = "" ∨ matchesQuery (jsTrim (jsToLower Q)) v = true)) ∧
    filterVideosByQuery L "" = L := by
  refine ⟨renderList_eq_filter L C Q, ?_, ?_, by simp [filterVideosByQuery]⟩
  · rw [renderList_eq_filter]; exact List.filter_sublist L
  · intro v
    rw [renderList_eq_filter, List.mem_filter]
    simp only [Bool.and_eq_true, Bool.or_eq_true, decide_eq_true_eq, beq_iff_eq]

/-- Witness for C1 at a concrete input (empty-query passthrough). -/
theorem filter_pipeline_correct_witness : filterVideosByQuery [] "" = [] :=
  (filter_pipeline_correct [] "All" "").2.2.2

/-- Claim C6: applying the pipeline to its own output with the same
category and query returns that output unchanged. -/
theorem filter_pipeline_idempotent (L : List Video) (C Q : String) :
    renderList (renderList L C Q) C Q = renderList L C Q := by
  rw [renderList_eq_filter, renderList_eq_filter, List.filter_filter]
  simp only [Bool.and_self]

/-- Witness for C6 at a concrete input. -/
theorem filter_pipeline_idempotent_witness :
    renderList (renderList [] "All" "") "All" "" = renderList [] "All" "" :=
  filter_pipeline_idempotent [] "All" ""

/-- Claim C8: a pipeline result of zero elements makes `renderVideos`
render exactly the empty-state paragraph and zero cards; a non-empty
result renders the cards and no empty-state message. -/
theorem renderVideos_empty_state (L : List Video) (C Q : String) :
    (renderList L C Q = [] →
      renderVideos L C Q = GridContent.emptyMessage "No videos found matching your search." ∧
      cardCount (renderVideos L C Q) = 0) ∧
    (renderList L C Q ≠ [] →
      renderVideos L C Q = GridContent.cards (renderList L C Q) ∧
      ∀ msg, renderVideos L C Q ≠ GridContent.emptyMessage msg) := by
  constructor
  · intro h
    unfold renderVideos
    rw [h]
    exact ⟨rfl, rfl⟩
  · intro h
    unfold renderVideos
    rw [if_neg (by simpa [List.length_eq_zero] using h)]
    exact ⟨rfl, fun msg hmsg => GridContent.noConfusion hmsg⟩

/-- Witness for C8 at a concrete input (empty list gives the message). -/
theorem renderVideos_empty_state_witness :
    renderVideos [] "All" "" = GridContent.emptyMessage "No videos found matching your search." ∧
    cardCount (renderVideos [] "All" "") = 0 :=
  (renderVideos_empty_state [] "All" "").1 rfl

/-- Lowercasing fixes whitespace characters. -/
theorem toLower_whitespace {c : Char} (h : c.isWhitespace = true) : c.toLower = c := by
  simp only [Char.isWhitespace, Bool.or_eq_true, decide_eq_true_eq] at h
  rcases h with ((rfl | rfl) | rfl) | rfl <;> decide

/-- The empty query matches every record, because the empty list is an
infix of every list. -/
theorem matchesQuery_empty (v : Video) : matchesQuery "" v = true := by
  have h : ("" : String).data = [] := rfl
  simp [matchesQuery, jsIncludes, h, List.nil_infix]

/-- Claim C9: a non-empty query consisting only of whitespace passes the
text filter through unchanged, exactly like the empty query. -/
theorem whitespace_query_passthrough (L : List Video) (q : String)
    (hne : q ≠ "") (hws : ∀ c ∈ q.data, c.isWhitespace) :
    filterVideosByQuery L q = L := by
  unfold filterVideosByQuery
  rw [if_neg hne]
  have hlow : ∀ c ∈ (jsToLower q).data, c.isWhitespace = true := by
    intro c hc
    simp only [jsToLower, List.mem_map] at hc
    obtain ⟨d, hd, rfl⟩ := hc
    rw [toLower_whitespace (hws d hd)]
    exact hws d hd
  have htrim : jsTrim (jsToLower q) = "" := by
    have h1 : ((jsToLower q).data.dropWhile Char.isWhitespace) = [] :=
      List.dropWhile_eq_nil_iff.mpr hlow
    have : jsTrim (jsToLower q) = ⟨[]⟩ := by
      unfold jsTrim
      rw [h1]
      rfl
    rw [this]
  rw [htrim]
  exact List.filter_eq_self.mpr fun v _ => matchesQuery_empty v

/-- Witness for C9 at a concrete input. -/
theorem whitespace_query_passthrough_witness :
    filterVideosByQuery [] " " = [] :=
  whitespace_query_passthrough [] " " (by decide) (by decide)

/-! ### The theme manager -/

/-- Applying the light theme writes this fixed state. -/
theorem applyTheme_light (s : DomState) : applyTheme "light" s =
    some ⟨some "light", "🌙", "Switch to dark theme", some "light"⟩ := rfl

/-- Applying the dark theme writes this fixed state. -/
theorem applyTheme_dark (s : DomState) : applyTheme "dark" s =
    some ⟨some "dark", "☀️", "Switch to light theme", some "dark"⟩ := rfl

/-- After a successful `applyTheme t`, both the document attribute and
the persisted entry hold `t`. -/
theorem stored_matches_applied (t : String) (u u' : DomState)
    (h : applyTheme t u = some u') : u'.storedTheme = some t ∧ u'.dataTheme = some t := by
  unfold applyTheme at h
  cases hT : THEMES t with
  | none => rw [hT] at h; exact Option.noConfusion h
  | some e =>
    rw [hT] at h
    simp only [Option.map_some', Option.some.injEq] at h
    subst h
    exact ⟨rfl, rfl⟩

/-- After any `toggleTheme` call the persisted entry matches the applied
attribute. -/
theorem toggle_stored_matches (u u' : DomState) (h : toggleTheme u = some u') :
    u'.storedTheme = u'.dataTheme := by
  unfold toggleTheme at h
  obtain ⟨h1, h2⟩ := stored_matches_applied _ u u' h
  rw [h1, h2]

/-- Claim C5: applying a theme then toggling applies the flipped theme
(the toggle reads the attribute, defaulting to "light"), and after every
`applyTheme` or `toggleTheme` the persisted value equals the attribute. -/
theorem theme_toggle_correct (t : String) (s s1 : DomState)
    (ht : t = "light" ∨ t = "dark") (h1 : applyTheme t s = some s1) :
    s1.dataTheme = some t ∧ s1.storedTheme = some t ∧
    toggleTheme s1 = applyTheme (if t = "light" then "dark" else "light") s1 ∧
    (∃ s2, toggleTheme s1 = some s2 ∧
      s2.dataTheme = some (if t = "light" then "dark" else "light") ∧
      s2.storedTheme = s2.dataTheme) ∧
    (∀ u u', applyTheme t u = some u' → u'.storedTheme = u'.dataTheme) ∧
    (∀ u u', toggleTheme u = some u' → u'.storedTheme = u'.dataTheme) ∧
    (∀ u : DomState, u.dataTheme = none → toggleTheme u = applyTheme "dark" u) := by
  obtain ⟨hst, hdt⟩ := stored_matches_applied t s s1 h1
  have htog : toggleTheme s1 = applyTheme (if t = "light" then "dark" else "light") s1 := by
    unfold toggleTheme
    rw [hdt]
    rfl
  refine ⟨hdt, hst, htog, ?_, ?_, fun u u' h => toggle_stored_matches u u' h, ?_⟩
  · rcases ht with rfl | rfl
    · rw [htog]
      simp only [if_pos rfl]
      exact ⟨_, applyTheme_dark s1, rfl, rfl⟩
    · rw [htog]
      rw [if_neg (by decide)]
      exact ⟨_, applyTheme_light s1, rfl, rfl⟩
  · intro u u' h
    obtain ⟨h1', h2'⟩ := stored_matches_applied t u u' h
    rw [h1', h2']
  · intro u hu
    unfold toggleTheme
    rw [hu]
    rfl

/-- Witness for C5 at a concrete input. -/
theorem theme_toggle_correct_witness :
    (⟨some "light", "🌙", "Switch to dark theme", some "light"⟩ : DomState).dataTheme =
      some "light" := by
  have h := theme_toggle_correct "light" ⟨none, "", "", none⟩
    ⟨some "light", "🌙", "Switch to dark theme", some "light"⟩
    (Or.inl rfl) (applyTheme_light _)
  exact h.1

/-- Claim C7: applying the same theme twice produces the same final state
as applying it once. -/
theorem applyTheme_idempotent (t : String) (s s1 : DomState)
    (ht : t = "light" ∨ t = "dark") (h : applyTheme t s = some s1) :
    applyTheme t s1 = some s1 := by
  rcases ht with rfl | rfl
  · rw [applyTheme_light] at h ⊢; exact h
  · rw [applyTheme_dark] at h ⊢; exact h

/-- Witness for C7 at a concrete input. -/
theorem applyTheme_idempotent_witness :
    applyTheme "light" (⟨some "light", "🌙", "Switch to dark theme", some "light"⟩ : DomState) =
      some ⟨some "light", "🌙", "Switch to dark theme", some "light"⟩ :=
  applyTheme_idempotent "light" ⟨none, "", "", none⟩ _ (Or.inl rfl) (applyTheme_light _)

/-! ### timeAgo -/

/-- Claim C2: the buckets of `timeAgo`, including the concrete sample
points named by the specification. -/
theorem timeAgo_buckets (days : ℕ) :
    (days < 1 → timeAgo days = "Today") ∧
    (days = 1 → timeAgo days = "1 day ago") ∧
    (1 < days → days < 30 → timeAgo days = Nat.repr days ++ " days ago") ∧
    (30 ≤ days → days < 365 → timeAgo days = Nat.repr (days / 30) ++ " months ago") ∧
    (365 ≤ days → timeAgo days = Nat.repr (days / 365) ++ " years ago") ∧
    timeAgo 0 = "Today" ∧ timeAgo 30 = "1 months ago" ∧
    timeAgo 364 = "12 months ago" ∧ timeAgo 365 = "1 years ago" ∧
    timeAgo 730 = "2 years ago" := by
  refine ⟨?_, ?_, ?_, ?_, ?_, by decide, by decide, by decide, by decide, by decide⟩
  · intro h; unfold timeAgo; rw [if_pos h]
  · intro h; unfold timeAgo; rw [if_neg (by omega), if_pos h]
  · intro h1 h2; unfold timeAgo
    rw [if_neg (by omega), if_neg (by omega), if_pos h2]
  · intro h1 h2; unfold timeAgo
    rw [if_neg (by omega), if_neg (by omega), if_neg (by omega), if_pos h2]
  · intro h; unfold timeAgo
    rw [if_neg (by omega), if_neg (by omega), if_neg (by omega), if_neg (by omega)]

/-- Witness for C2 at a concrete input in the plain-days bucket. -/
theorem timeAgo_buckets_witness : timeAgo 5 = Nat.repr 5 ++ " days ago" :=
  (timeAgo_buckets 5).2.2.1 (by decide) (by decide)

/-! ### formatViews -/

/-- The fuel-driven logarithm agrees with `Nat.log2` once the fuel
dominates the argument. -/
theorem log2Aux_eq_log2 : ∀ fuel n, n < 2 ^ fuel → log2Aux fuel n = Nat.log2 n := by
  intro fuel
  induction fuel with
  | zero =>
    intro n hn
    have h0 : n = 0 := by simpa using hn
    subst h0
    rw [log2Aux, Nat.log2]
    simp
  | succ f ih =>
    intro n hn
    rw [log2Aux, Nat.log2]
    by_cases h : 2 ≤ n
    · have hp : 2 ^ (f + 1) = 2 * 2 ^ f := by rw [pow_succ, Nat.mul_comm]
      rw [if_pos h, if_pos h, ih (n / 2) (by omega)]
    · rw [if_neg h, if_neg h]

/-- `floorLog2` computes `Nat.log2`. -/
theorem floorLog2_eq (n : ℕ) : floorLog2 n = Nat.log2 n :=
  log2Aux_eq_log2 n n (Nat.lt_two_pow n)

/-- For quotients below `2 ^ 42` the binary64 scaling exponent is at
least 11, so the rounding error terms below stay small. -/
theorem fpShift_ge_eleven (p q : ℕ) (hq : 0 < q) (hub : p < 2 ^ 42 * q) :
    11 ≤ fpShift p q := by
  unfold fpShift
  rw [floorLog2_eq]
  have hub' : p < q * 2 ^ 42 := by rw [Nat.mul_comm] at hub; exact hub
  have hlt : p / q < 2 ^ 42 := Nat.div_lt_of_lt_mul hub'
  rcases Nat.eq_zero_or_pos (p / q) with h0 | hpos
  · rw [h0]
    have hz : Nat.log2 0 = 0 := by rw [Nat.log2]; simp
    rw [hz]
    omega
  · have hlog : Nat.log2 (p / q) < 42 := (Nat.log2_lt (by omega)).mpr hlt
    omega

/-- Ten is below the scaling power. -/
theorem fpShift_pow_ge (p q : ℕ) (hq : 0 < q) (hub : p < 2 ^ 42 * q) :
    (10 : ℤ) ≤ 2 ^ fpShift p q := by
  have h := fpShift_ge_eleven p q hq hub
  calc (10 : ℤ) ≤ 2 ^ 11 := by norm_num
    _ ≤ 2 ^ fpShift p q := by
        apply pow_le_pow_right₀ (by norm_num) h

/-- Rounding to the nearest binary64 value moves `p * 2 ^ s / q` by at
most one half. -/
theorem fpMantissa_close (p q : ℕ) (hq : 0 < q) :
    2 * |(fpMantissa p q : ℤ) * q - (p : ℤ) * 2 ^ fpShift p q| ≤ q := by
  have hdm := Nat.div_add_mod (p * 2 ^ fpShift p q) q
  have hmod : p * 2 ^ fpShift p q % q < q := Nat.mod_lt _ hq
  have hcast : (q : ℤ) * ((p * 2 ^ fpShift p q / q : ℕ) : ℤ) +
      ((p * 2 ^ fpShift p q % q : ℕ) : ℤ) = (p : ℤ) * 2 ^ fpShift p q := by
    exact_mod_cast hdm
  have hmod' : ((p * 2 ^ fpShift p q % q : ℕ) : ℤ) < (q : ℤ) := by exact_mod_cast hmod
  have hR : (0 : ℤ) ≤ ((p * 2 ^ fpShift p q % q : ℕ) : ℤ) := Int.natCast_nonneg _
  unfold fpMantissa
  split_ifs with h1 h2 h3
  · have h1' : 2 * ((p * 2 ^ fpShift p q % q : ℕ) : ℤ) < (q : ℤ) := by exact_mod_cast h1
    have e : ((p * 2 ^ fpShift p q / q : ℕ) : ℤ) * q - (p : ℤ) * 2 ^ fpShift p q =
        -((p * 2 ^ fpShift p q % q : ℕ) : ℤ) := by linarith
    rw [e, abs_neg, abs_of_nonneg hR]
    linarith
  · have h2' : (q : ℤ) < 2 * ((p * 2 ^ fpShift p q % q : ℕ) : ℤ) := by exact_mod_cast h2
    have e : ((p * 2 ^ fpShift p q / q + 1 : ℕ) : ℤ) * q - (p : ℤ) * 2 ^ fpShift p q =
        (q : ℤ) - ((p * 2 ^ fpShift p q % q : ℕ) : ℤ) := by push_cast; linarith
    rw [e, abs_of_nonneg (by linarith)]
    linarith
  · have htie : 2 * ((p * 2 ^ fpShift p q % q : ℕ) : ℤ) = (q : ℤ) := by
      have hn1 : ¬ 2 * (p * 2 ^ fpShift p q % q) < q := h1
      have hn2 : ¬ q < 2 * (p * 2 ^ fpShift p q % q) := h2
      omega
    have e : ((p * 2 ^ fpShift p q / q : ℕ) : ℤ) * q - (p : ℤ) * 2 ^ fpShift p q =
        -((p * 2 ^ fpShift p q % q : ℕ) : ℤ) := by linarith
    rw [e, abs_neg, abs_of_nonneg hR]
    linarith
  · have htie : 2 * ((p * 2 ^ fpShift p q % q : ℕ) : ℤ) = (q : ℤ) := by
      have hn1 : ¬ 2 * (p * 2 ^ fpShift p q % q) < q := h1
      have hn2 : ¬ q < 2 * (p * 2 ^ fpShift p q % q) := h2
      omega
    have e : ((p * 2 ^ fpShift p q / q + 1 : ℕ) : ℤ) * q - (p : ℤ) * 2 ^ fpShift p q =
        (q : ℤ) - ((p * 2 ^ fpShift p q % q : ℕ) : ℤ) := by push_cast; linarith
    rw [e, abs_of_nonneg (by linarith)]
    linarith

/-- The ECMAScript `toFixed(1)` rounding moves `10 * x` by at most one
half. -/
theorem toFixed1Num_close (p q : ℕ) :
    |(2 : ℤ) ^ (fpShift p q + 1) * toFixed1Num p q - 20 * fpMantissa p q| ≤
      2 ^ fpShift p q := by
  have hdm := Nat.div_add_mod (20 * fpMantissa p q + 2 ^ fpShift p q) (2 ^ (fpShift p q + 1))
  have hmod : (20 * fpMantissa p q + 2 ^ fpShift p q) % 2 ^ (fpShift p q + 1) <
      2 ^ (fpShift p q + 1) := Nat.mod_lt _ (by positivity)
  have hcast : (2 : ℤ) ^ (fpShift p q + 1) * toFixed1Num p q +
      (((20 * fpMantissa p q + 2 ^ fpShift p q) % 2 ^ (fpShift p q + 1) : ℕ) : ℤ) =
      20 * (fpMantissa p q : ℤ) + 2 ^ fpShift p q := by
    unfold toFixed1Num
    exact_mod_cast hdm
  have hmod' : (((20 * fpMantissa p q + 2 ^ fpShift p q) % 2 ^ (fpShift p q + 1) : ℕ) : ℤ) <
      2 ^ (fpShift p q + 1) := by exact_mod_cast hmod
  have hR : (0 : ℤ) ≤
      (((20 * fpMantissa p q + 2 ^ fpShift p q) % 2 ^ (fpShift p q + 1) : ℕ) : ℤ) :=
    Int.natCast_nonneg _
  have hp : (2 : ℤ) ^ (fpShift p q + 1) = 2 * 2 ^ fpShift p q := by
    rw [pow_succ]; ring
  rw [abs_le]
  constructor <;> linarith

/-- Combined accuracy of division-then-`toFixed(1)`: the rendered tenths
value is within one tenth of the true quotient (`|k / 10 - p / q| ≤ 1 / 10`,
cleared of denominators). -/
theorem toFixed1Num_accurate (p q : ℕ) (hq : 0 < q) (hub : p < 2 ^ 42 * q) :
    |(toFixed1Num p q : ℤ) * q - 10 * p| ≤ q := by
  have hE := fpShift_pow_ge p q hq hub
  have h1 := fpMantissa_close p q hq
  have h2 := toFixed1Num_close p q
  have hq' : (0 : ℤ) ≤ q := Int.natCast_nonneg q
  have key : (2 : ℤ) ^ (fpShift p q + 1) * ((toFixed1Num p q : ℤ) * q - 10 * p) =
      (q : ℤ) * ((2 : ℤ) ^ (fpShift p q + 1) * toFixed1Num p q - 20 * fpMantissa p q) +
      20 * ((fpMantissa p q : ℤ) * q - (p : ℤ) * 2 ^ fpShift p q) := by
    rw [pow_succ]; ring
  have habs : |(2 : ℤ) ^ (fpShift p q + 1) * ((toFixed1Num p q : ℤ) * q - 10 * p)| ≤
      (q : ℤ) * 2 ^ fpShift p q + 10 * q := by
    rw [key]
    refine le_trans (abs_add _ _) ?_
    rw [abs_mul, abs_mul, abs_of_nonneg hq', abs_of_nonneg (by norm_num : (0 : ℤ) ≤ 20)]
    have hx : (q : ℤ) * |(2 : ℤ) ^ (fpShift p q + 1) * toFixed1Num p q -
        20 * fpMantissa p q| ≤ (q : ℤ) * 2 ^ fpShift p q :=
      mul_le_mul_of_nonneg_left h2 hq'
    linarith
  have hF : (0 : ℤ) < 2 ^ (fpShift p q + 1) := by positivity
  rw [abs_mul, abs_of_nonneg hF.le] at habs
  have hps : (2 : ℤ) ^ (fpShift p q + 1) = 2 ^ fpShift p q * 2 := pow_succ 2 (fpShift p q)
  have h10 : 10 * (q : ℤ) ≤ 2 ^ fpShift p q * q := mul_le_mul_of_nonneg_right hE hq'
  have hfin : (2 : ℤ) ^ (fpShift p q + 1) * |(toFixed1Num p q : ℤ) * q - 10 * p| ≤
      (2 : ℤ) ^ (fpShift p q + 1) * q := by
    rw [hps] at habs ⊢
    linarith
  exact le_of_mul_le_mul_left hfin hF

/-- Single-digit numerals have length 1. -/
theorem repr_lt_ten_length : ∀ d < 10, (Nat.repr d).length = 1 := by decide

/-- Claim C3: the thresholds of `formatViews` select the B/M/K suffix, the
scaled value is rendered with exactly one decimal digit and is within one
tenth of the true quotient, numbers below 1000 are rendered literally, and
the sample points named by the specification hold.  The hypothesis keeps
the integer input exactly representable in binary64. -/
theorem formatViews_thresholds (n : ℕ) (hn : n < 2 ^ 53) :
    (1000000000 ≤ n →
      formatViews n = Nat.repr (toFixed1Num n 1000000000 / 10) ++ "." ++
        Nat.repr (toFixed1Num n 1000000000 % 10) ++ "B views" ∧
      (Nat.repr (toFixed1Num n 1000000000 % 10)).length = 1 ∧
      |(toFixed1Num n 1000000000 : ℤ) * 1000000000 - 10 * n| ≤ 1000000000) ∧
    (1000000 ≤ n → n < 1000000000 →
      formatViews n = Nat.repr (toFixed1Num n 1000000 / 10) ++ "." ++
        Nat.repr (toFixed1Num n 1000000 % 10) ++ "M views" ∧
      (Nat.repr (toFixed1Num n 1000000 % 10)).length = 1 ∧
      |(toFixed1Num n 1000000 : ℤ) * 1000000 - 10 * n| ≤ 1000000) ∧
    (1000 ≤ n → n < 1000000 →
      formatViews n = Nat.repr (toFixed1Num n 1000 / 10) ++ "." ++
        Nat.repr (toFixed1Num n 1000 % 10) ++ "K views" ∧
      (Nat.repr (toFixed1Num n 1000 % 10)).length = 1 ∧
      |(toFixed1Num n 1000 : ℤ) * 1000 - 10 * n| ≤ 1000) ∧
    (n < 1000 → formatViews n = Nat.repr n ++ " views") ∧
    formatViews 1000 = "1.0K views" ∧ formatViews 1000000 = "1.0M views" ∧
    formatViews 500 = "500 views" := by
  refine ⟨?_, ?_, ?_, ?_, by decide, by decide, by decide⟩
  · intro h
    unfold formatViews
    rw [if_pos h]
    exact ⟨rfl, repr_lt_ten_length _ (Nat.mod_lt _ (by norm_num)),
      toFixed1Num_accurate n 1000000000 (by norm_num)
        (lt_of_lt_of_le hn (by norm_num))⟩
  · intro h h2
    unfold formatViews
    rw [if_neg (by omega), if_pos h]
    exact ⟨rfl, repr_lt_ten_length _ (Nat.mod_lt _ (by norm_num)),
      toFixed1Num_accurate n 1000000 (by norm_num)
        (lt_of_lt_of_le h2 (by norm_num))⟩
  · intro h h2
    unfold formatViews
    rw [if_neg (by omega), if_neg (by omega), if_pos h]
    exact ⟨rfl, repr_lt_ten_length _ (Nat.mod_lt _ (by norm_num)),
      toFixed1Num_accurate n 1000 (by norm_num)
        (lt_of_lt_of_le h2 (by norm_num))⟩
  · intro h
    unfold formatViews
    rw [if_neg (by omega), if_neg (by omega), if_neg (by omega)]

/-- Witness for C3 at a concrete input. -/
theorem formatViews_thresholds_witness : formatViews 500 = "500 views" :=
  (formatViews_thresholds 500 (by norm_num)).2.2.2.2.2.2

/-! ### The data generator -/

/-- `rand` never goes below its lower bound. -/
theorem rand_lower (r : ℚ) (lo hi : ℕ) : lo ≤ rand r lo hi := by
  unfold rand
  omega

/-- With a draw in `[0, 1)`, `rand` never exceeds its upper bound. -/
theorem rand_upper (r : ℚ) (h0 : 0 ≤ r) (h1 : r < 1) (lo hi : ℕ) (hlh : lo ≤ hi) :
    rand r lo hi ≤ hi := by
  unfold rand
  have hkQ : (0 : ℚ) < ((hi - lo + 1 : ℕ) : ℚ) := by
    exact_mod_cast Nat.succ_pos (hi - lo)
  have hmul : r * ((hi - lo + 1 : ℕ) : ℚ) < ((hi - lo + 1 : ℕ) : ℚ) := by
    calc r * ((hi - lo + 1 : ℕ) : ℚ) < 1 * ((hi - lo + 1 : ℕ) : ℚ) :=
          mul_lt_mul_of_pos_right h1 hkQ
      _ = ((hi - lo + 1 : ℕ) : ℚ) := one_mul _
  have hfl : ⌊r * ((hi - lo + 1 : ℕ) : ℚ)⌋ < ((hi - lo + 1 : ℕ) : ℤ) := by
    apply Int.floor_lt.mpr
    push_cast
    push_cast at hmul
    exact hmul
  omega

/-- With a draw in `[0, 1)`, `pick` returns an element of its list. -/
theorem pick_mem {α : Type} [Inhabited α] (r : ℚ) (h0 : 0 ≤ r) (h1 : r < 1)
    (arr : List α) (hne : arr ≠ []) : pick r arr ∈ arr := by
  unfold pick
  have hlen : 0 < arr.length := List.length_pos.mpr hne
  have hle : rand r 0 (arr.length - 1) ≤ arr.length - 1 :=
    rand_upper r h0 h1 0 _ (Nat.zero_le _)
  have hlt : rand r 0 (arr.length - 1) < arr.length := by omega
  rw [List.getD_eq_getElem arr default hlt]
  exact List.getElem_mem hlt

/-- Seconds render as exactly two characters after zero padding. -/
theorem padStart2Zero_length : ∀ s < 60, (padStart2Zero (Nat.repr s)).length = 2 := by
  decide

/-- Claim C4: `generateVideos` returns exactly `count` records, and every
record has a category from the enumeration minus "All", views in
`[500, 10000000]`, days-ago in `[0, 1200]`, and a duration
`minutes:seconds` with minutes in `[1, 20]` and two-digit seconds in
`[0, 59]` — for every outcome of the `Math.random()` oracle. -/
theorem generateVideos_postconditions (ρ : ℕ → ℚ) (count : ℕ)
    (hρ : ∀ i, 0 ≤ ρ i ∧ ρ i < 1) :
    (generateVideos ρ count).length = count ∧
    ∀ v ∈ generateVideos ρ count,
      v.category ∈ CATEGORIES.drop 1 ∧
      500 ≤ v.views ∧ v.views ≤ 10000000 ∧
      v.daysAgo ≤ 1200 ∧
      ∃ m s : ℕ, 1 ≤ m ∧ m ≤ 20 ∧ s ≤ 59 ∧
        v.duration = Nat.repr m ++ ":" ++ padStart2Zero (Nat.repr s) ∧
        (padStart2Zero (Nat.repr s)).length = 2 := by
  constructor
  · unfold generateVideos
    rw [List.length_map, List.length_range]
  · intro v hv
    unfold generateVideos at hv
    rw [List.mem_map] at hv
    obtain ⟨i, hi, rfl⟩ := hv
    have hsec : rand (ρ (10 * i + 9)) 0 59 ≤ 59 :=
      rand_upper _ (hρ _).1 (hρ _).2 _ _ (by norm_num)
    refine ⟨?_, ?_, ?_, ?_, ?_⟩
    · show pick (ρ (10 * i)) (CATEGORIES.drop 1) ∈ CATEGORIES.drop 1
      exact pick_mem _ (hρ _).1 (hρ _).2 _ (by decide)
    · show 500 ≤ rand (ρ (10 * i + 4)) 500 10000000
      exact rand_lower _ _ _
    · show rand (ρ (10 * i + 4)) 500 10000000 ≤ 10000000
      exact rand_upper _ (hρ _).1 (hρ _).2 _ _ (by norm_num)
    · show rand (ρ (10 * i + 5)) 0 1200 ≤ 1200
      exact rand_upper _ (hρ _).1 (hρ _).2 _ _ (by norm_num)
    · exact ⟨rand (ρ (10 * i + 8)) 1 20, rand (ρ (10 * i + 9)) 0 59,
        rand_lower _ _ _,
        rand_upper _ (hρ _).1 (hρ _).2 _ _ (by norm_num),
        hsec, rfl, padStart2Zero_length _ (by omega)⟩

/-- Witness for C4 at the oracle that always draws 0 and the count used
by the page. -/
theorem generateVideos_postconditions_witness :
    (generateVideos (fun _ => 0) 36).length = 36 :=
  (generateVideos_postconditions (fun _ => 0) 36
    (fun _ => ⟨le_refl 0, by norm_num⟩)).1

/-! ### Distinctness of generated ids -/

/-- String append concatenates the underlying character lists. -/
theorem strData_append (a b : String) : (a ++ b).data = a.data ++ b.data := by
  cases a
  cases b
  rfl

/-- Decimal digit characters are digits. -/
theorem digitChar_isDigit : ∀ m < 10, (Nat.digitChar m).isDigit = true := by decide

/-- Every character produced by `Nat.toDigitsCore` at base 10 is a digit
(provided the accumulator holds only digits). -/
theorem toDigitsCore_digits : ∀ (f n : ℕ) (ds : List Char),
    (∀ c ∈ ds, c.isDigit = true) →
    ∀ c ∈ Nat.toDigitsCore 10 f n ds, c.isDigit = true := by
  intro f
  induction f with
  | zero =>
    intro n ds hds
    rw [Nat.toDigitsCore]
    exact hds
  | succ f ih =>
    intro n ds hds
    simp only [Nat.toDigitsCore]
    have hd : ∀ c ∈ Nat.digitChar (n % 10) :: ds, c.isDigit = true := by
      intro c hc
      rw [List.mem_cons] at hc
      rcases hc with rfl | hc
      · exact digitChar_isDigit _ (Nat.mod_lt _ (by norm_num))
      · exact hds c hc
    by_cases h : n / 10 = 0
    · rw [if_pos h]
      exact hd
    · rw [if_neg h]
      exact ih _ _ hd

/-- Every character of a decimal numeral is a digit. -/
theorem repr_data_digits (n : ℕ) : ∀ c ∈ (Nat.repr n).data, c.isDigit = true := by
  intro c hc
  have hrepr : (Nat.repr n).data = Nat.toDigitsCore 10 (n + 1) n [] := rfl
  rw [hrepr] at hc
  exact toDigitsCore_digits (n + 1) n []
    (fun c hc => absurd hc (List.not_mem_nil c)) c hc

/-- `Nat.toDigitsCore` only prepends to its accumulator. -/
theorem toDigitsCore_append : ∀ (f n : ℕ) (ds : List Char),
    Nat.toDigitsCore 10 f n ds = Nat.toDigitsCore 10 f n [] ++ ds := by
  intro f
  induction f with
  | zero =>
    intro n ds
    rw [Nat.toDigitsCore, Nat.toDigitsCore]
    rfl
  | succ f ih =>
    intro n ds
    simp only [Nat.toDigitsCore]
    by_cases h : n / 10 = 0
    · rw [if_pos h, if_pos h]
      rfl
    · rw [if_neg h, if_neg h, ih (n / 10) (Nat.digitChar (n % 10) :: ds),
        ih (n / 10) [Nat.digitChar (n % 10)], List.append_assoc]
      rfl

/-- Value of a digit string, used to invert decimal rendering. -/
def digitVal (l : List Char) : ℕ := l.foldl (fun a c => 10 * a + (c.toNat - 48)) 0

/-- Appending one digit multiplies the value by ten and adds it. -/
theorem digitVal_append_singleton (l : List Char) (c : Char) :
    digitVal (l ++ [c]) = 10 * digitVal l + (c.toNat - 48) := by
  unfold digitVal
  rw [List.foldl_append]
  rfl

/-- The code of a digit character decodes back to its value. -/
theorem digitChar_val : ∀ m < 10, (Nat.digitChar m).toNat - 48 = m := by decide

/-- `digitVal` inverts `Nat.toDigitsCore` at base 10 when the fuel
dominates the argument. -/
theorem digitVal_toDigitsCore : ∀ (f n : ℕ), n < f →
    digitVal (Nat.toDigitsCore 10 f n []) = n := by
  intro f
  induction f with
  | zero =>
    intro n hn
    exact absurd hn (Nat.not_lt_zero n)
  | succ f ih =>
    intro n hn
    simp only [Nat.toDigitsCore]
    by_cases h : n / 10 = 0
    · rw [if_pos h]
      have hval : digitVal [Nat.digitChar (n % 10)] =
          (Nat.digitChar (n % 10)).toNat - 48 := by
        unfold digitVal
        simp [List.foldl]
      rw [hval, digitChar_val _ (Nat.mod_lt _ (by norm_num))]
      omega
    · rw [if_neg h, toDigitsCore_append, digitVal_append_singleton,
        ih (n / 10) (by omega), digitChar_val _ (Nat.mod_lt _ (by norm_num))]
      omega

/-- `digitVal` inverts `Nat.repr`. -/
theorem digitVal_repr (n : ℕ) : digitVal (Nat.repr n).data = n :=
  digitVal_toDigitsCore (n + 1) n (Nat.lt_succ_self n)

/-- If two digit strings followed by a hyphen and arbitrary tails agree,
the digit strings agree. -/
theorem digits_dash_inj : ∀ (l1 l2 r1 r2 : List Char),
    (∀ c ∈ l1, c.isDigit = true) → (∀ c ∈ l2, c.isDigit = true) →
    l1 ++ '-' :: r1 = l2 ++ '-' :: r2 → l1 = l2 := by
  intro l1
  induction l1 with
  | nil =>
    intro l2 r1 r2 h1 h2 heq
    cases l2 with
    | nil => rfl
    | cons c cs =>
      simp only [List.nil_append, List.cons_append] at heq
      injection heq with hhead htail
      have hc := h2 c (List.mem_cons_self c cs)
      rw [← hhead] at hc
      exact absurd hc (by decide)
  | cons c cs ih =>
    intro l2 r1 r2 h1 h2 heq
    cases l2 with
    | nil =>
      simp only [List.nil_append, List.cons_append] at heq
      injection heq with hhead htail
      have hc := h1 c (List.mem_cons_self c cs)
      rw [hhead] at hc
      exact absurd hc (by decide)
    | cons d ds =>
      simp only [List.cons_append] at heq
      injection heq with hhead htail
      subst hhead
      rw [ih ds r1 r2 (fun x hx => h1 x (List.mem_cons_of_mem _ hx))
        (fun x hx => h2 x (List.mem_cons_of_mem _ hx)) htail]

/-- Ids built from distinct indices differ, whatever the slugs are: the
decimal index is delimited by the following hyphen. -/
theorem vid_id_inj (i j : ℕ) (s t : String)
    (h : "vid-" ++ Nat.repr i ++ "-" ++ s = "vid-" ++ Nat.repr j ++ "-" ++ t) :
    i = j := by
  have hdata := congrArg String.data h
  rw [strData_append, strData_append, strData_append,
    strData_append, strData_append, strData_append] at hdata
  rw [show ("vid-" : String).data = ['v', 'i', 'd', '-'] from rfl,
    show ("-" : String).data = ['-'] from rfl] at hdata
  simp only [List.append_assoc, List.singleton_append] at hdata
  have hcancel := List.append_cancel_left hdata
  have hrepr := digits_dash_inj (Nat.repr i).data (Nat.repr j).data s.data t.data
    (repr_data_digits i) (repr_data_digits j) hcancel
  have hv := congrArg digitVal hrepr
  rw [digitVal_repr i, digitVal_repr j] at hv
  exact hv

/-- Claim C10: the ids of the records returned by `generateVideos` are
pairwise distinct, for every count and every outcome of the random
choices. -/
theorem generateVideos_ids_nodup (ρ : ℕ → ℚ) (count : ℕ) :
    ((generateVideos ρ count).map Video.id).Nodup := by
  unfold generateVideos
  rw [List.map_map]
  refine List.Nodup.map_on ?_ (List.nodup_range count)
  intro i hi j hj hij
  have hij' : "vid-" ++ Nat.repr i ++ "-" ++
      slugify (pick (ρ (10 * i + 1)) sampleTitles ++ " " ++
        Nat.repr (rand (ρ (10 * i + 2)) 1 999)) =
      "vid-" ++ Nat.repr j ++ "-" ++
      slugify (pick (ρ (10 * j + 1)) sampleTitles ++ " " ++
        Nat.repr (rand (ρ (10 * j + 2)) 1 999)) := hij
  exact vid_id_inj i j _ _ hij'

/-- Witness for C10 at a concrete oracle and count. -/
theorem generateVideos_ids_nodup_witness :
    ((generateVideos (fun _ => 0) 2).map Video.id).Nodup :=
  generateVideos_ids_nodup (fun _ => 0) 2

end YTClone
